import Mathlib

/-!
Verification of the appointment-schedule frontend (doctor day/week calendar).

Shallow embedding conventions:
* A JavaScript `Date` is modelled as an `Int` of milliseconds since an epoch
  that falls on a Monday at local midnight; no time zones or DST are modelled.
* `new Date(date).setHours(h, m, 0, 0)` replaces the time-of-day of `date`,
  so the day-view slot generator depends on its `date` argument only through
  the midnight instant of that date.  The embedding therefore passes that
  midnight instant (`dayStart`) directly.
* JavaScript `Math.floor`, `Math.round` and `Math.ceil` on exact quotients of
  integers are modelled with `Int.fdiv` (floor division); the fractional
  pixel arithmetic of `getAppointmentPosition` is modelled exactly over `ℚ`.
* Fallible store calls are modelled with `Except`.
-/

/-- A thrown JavaScript value, as observed by `catch (err)`:
`isErrorInstance` records whether `err instanceof Error` holds. -/
structure JSException where
  isErrorInstance : Bool
  message : String
deriving DecidableEq

/-- Patient reference data (src: `@/types`, fields used by the core). -/
structure Patient where
  id : String
  name : String
deriving DecidableEq

/-- Doctor reference data (src: `@/types`, fields used by the core). -/
structure Doctor where
  id : String
  name : String
  specialty : String
deriving DecidableEq

/-- Raw appointment record (src: `@/types`).  `startTime`/`endTime` are
instants in epoch milliseconds; `type` is the raw appointment-type value. -/
structure Appointment where
  id : String
  doctorId : String
  patientId : String
  startTime : Int
  endTime : Int
  type : String
  notes : Option String
deriving DecidableEq

/-- An appointment joined with its resolved doctor and patient records.
The `?.` optional chaining in `ScheduleView` is reflected by `Option`
references. -/
structure PopulatedAppointment where
  id : String
  doctorId : String
  patientId : String
  startTime : Int
  endTime : Int
  type : String
  notes : Option String
  patient : Option Patient
  doctor : Option Doctor
deriving DecidableEq

/-- A day-view time slot (src: `@/types` `TimeSlot`).  The source field `end`
is a Lean keyword and is named `stop` here. -/
structure TimeSlot where
  start : Int
  stop : Int
  label : String
deriving DecidableEq

/-- Calendar configuration (src: `@/types` `CalendarConfig`). -/
structure CalendarConfig where
  startHour : Nat
  endHour : Nat
  slotDuration : Nat
deriving DecidableEq

/-- Modelled from the spec: `DEFAULT_CALENDAR_CONFIG` lives in `@/types`,
which is not under `src/`; the spec fixes it as working hours 8–18 with
30-minute slot granularity. -/
def DEFAULT_CALENDAR_CONFIG : CalendarConfig :=
  { startHour := 8, endHour := 18, slotDuration := 30 }

/-- JavaScript `new Date(dayStart).setHours(h, m, 0, 0)` where `dayStart` is the
midnight instant of the displayed date. -/
def setHMS (dayStart : Int) (h m : Nat) : Int :=
  dayStart + ((h * 60 + m : Nat) : Int) * 60000

/-- Two-digit zero padding for minutes (presentation only). -/
def pad2 (n : Nat) : String :=
  if n < 10 then "0" ++ toString n else toString n

/-- date-fns `format(start, 'h:mm a')`, specialised to whole minutes
(presentation only; the spec calls the label format a presentation concern). -/
def formatLabel (hour minute : Nat) : String :=
  let h12 := if hour % 12 == 0 then 12 else hour % 12
  let period := if hour < 12 then "AM" else "PM"
  toString h12 ++ ":" ++ pad2 minute ++ " " ++ period

/-- Source `DayView.timeSlots` (src/components/DayView.tsx lines 82–101): for each
hour from `startHour` (inclusive) to `endHour` (exclusive) and each minute
`0, slotDuration, …  < 60`, push a slot starting at that wall-clock time and
ending `slotDuration` minutes later. -/
def timeSlots (dayStart : Int) : List TimeSlot :=
  let cfg := DEFAULT_CALENDAR_CONFIG
  (List.range (cfg.endHour - cfg.startHour)).flatMap (fun hi =>
    (List.range ((60 + cfg.slotDuration - 1) / cfg.slotDuration)).map (fun mi =>
      let hour := cfg.startHour + hi
      let minute := mi * cfg.slotDuration
      let start := setHMS dayStart hour minute
      { start := start
        stop := start + ((cfg.slotDuration : Nat) : Int) * 60000
        label := formatLabel hour minute }))

/-- The `i`-th generated slot of the default configuration, in closed form:
it covers `[dayStart + 8h + 30min·i, dayStart + 8h + 30min·(i+1))`. -/
def slotAt (b : Int) (i : Nat) : TimeSlot :=
  { start := b + ((28800000 + 1800000 * i : Nat) : Int)
    stop := b + ((28800000 + 1800000 * i : Nat) : Int) + 1800000
    label := formatLabel (8 + i / 2) (i % 2 * 30) }

theorem timeSlots_eq (b : Int) :
    timeSlots b = (List.range 20).map (slotAt b) := rfl

@[simp] theorem slotAt_start (b : Int) (i : Nat) :
    (slotAt b i).start = b + ((28800000 + 1800000 * i : Nat) : Int) := rfl

@[simp] theorem slotAt_stop (b : Int) (i : Nat) :
    (slotAt b i).stop = b + ((28800000 + 1800000 * i : Nat) : Int) + 1800000 := rfl

theorem mem_timeSlots (b : Int) (s : TimeSlot) :
    s ∈ timeSlots b ↔ ∃ i, i < 20 ∧ s = slotAt b i := by
  rw [timeSlots_eq]
  simp only [List.mem_map, List.mem_range]
  exact exists_congr fun i => and_congr_right fun _ => eq_comm

/-- Source `DayView.getAppointmentsForSlot` (src/components/DayView.tsx lines
113–118): the populated appointments whose `startTime` lies in
`[slot.start, slot.end)`. -/
def getAppointmentsForSlot (populatedAppointments : List PopulatedAppointment)
    (slot : TimeSlot) : List PopulatedAppointment :=
  populatedAppointments.filter (fun appointment =>
    decide (slot.start ≤ appointment.startTime) &&
    decide (appointment.startTime < slot.stop))

theorem mem_getAppointmentsForSlot (pops : List PopulatedAppointment)
    (s : TimeSlot) (a : PopulatedAppointment) :
    a ∈ getAppointmentsForSlot pops s ↔
      a ∈ pops ∧ s.start ≤ a.startTime ∧ a.startTime < s.stop := by
  simp [getAppointmentsForSlot, List.mem_filter]

/-- JavaScript `Math.round (n / d)` for integers with `0 < d`
(round half toward positive infinity). -/
def jsRoundDiv (n d : Int) : Int := (2 * n + d).fdiv (2 * d)

/-- JavaScript `Math.ceil (n / d)` for integers with `0 < d`. -/
def jsCeilDiv (n d : Int) : Int := -((-n).fdiv d)

/-- Source `DayView.getAppointmentDuration` (src/components/DayView.tsx lines
123–127): `Math.round((end - start) / (1000 * 60))` minutes. -/
def getAppointmentDuration (appointment : PopulatedAppointment) : Int :=
  jsRoundDiv (appointment.endTime - appointment.startTime) (1000 * 60)

/-- Source `DayView.getAppointmentSlotSpan` (src/components/DayView.tsx lines
132–135): `Math.ceil(duration / slotDuration)`. -/
def getAppointmentSlotSpan (appointment : PopulatedAppointment) : Int :=
  jsCeilDiv (getAppointmentDuration appointment)
    ((DEFAULT_CALENDAR_CONFIG.slotDuration : Nat) : Int)

/-- The `{top, height}` pixel pair of `getAppointmentPosition`. -/
structure SlotPosition where
  top : ℚ
  height : ℚ
deriving DecidableEq

/-- Source `DayView.getAppointmentPosition` (src/components/DayView.tsx lines
140–158), with the exact rational values of the JavaScript floating-point
arithmetic.  `slotHeight = 70` pixels, margin 4, minimum readable height 20. -/
def getAppointmentPosition (appointment : PopulatedAppointment)
    (slot : TimeSlot) : SlotPosition :=
  let slotHeight : ℚ := 70
  let minutesFromSlotStart : ℚ :=
    ((appointment.startTime - slot.start : Int) : ℚ) / (1000 * 60)
  let appointmentDurationMinutes : ℚ :=
    ((appointment.endTime - appointment.startTime : Int) : ℚ) / (1000 * 60)
  let top : ℚ :=
    minutesFromSlotStart / ((DEFAULT_CALENDAR_CONFIG.slotDuration : Nat) : ℚ) * slotHeight
  let height : ℚ :=
    min (appointmentDurationMinutes / ((DEFAULT_CALENDAR_CONFIG.slotDuration : Nat) : ℚ) * slotHeight)
      (slotHeight - top - 4)
  { top := max 0 top, height := max 20 height }

/-- Source `DayView` empty state (src/components/DayView.tsx line 241): the
"no appointments today" block renders when `appointments.length === 0`. -/
def dayViewShowsEmptyState (appointments : List Appointment) : Bool :=
  appointments.length == 0

/-- Does the character list `s` begin with the character list `pat`? -/
def charsStartWith : List Char → List Char → Bool
  | _, [] => true
  | [], _ :: _ => false
  | c :: cs, p :: ps => c == p && charsStartWith cs ps

/-- Does the character list `s` contain `pat` as a contiguous run? -/
def charsContain : List Char → List Char → Bool
  | [], pat => pat.isEmpty
  | c :: cs, pat => charsStartWith (c :: cs) pat || charsContain cs pat

/-- JavaScript `s.includes(pat)`: substring containment. -/
def jsIncludes (s pat : String) : Bool := charsContain s.data pat.data

/-- JavaScript `s.trim()`: strip leading and trailing whitespace. -/
def jsTrim (s : String) : String :=
  ⟨((s.data.dropWhile Char.isWhitespace).reverse.dropWhile Char.isWhitespace).reverse⟩

/-- JavaScript `s.toLowerCase()` (ASCII range, which covers all strings the
sources compare). -/
def jsToLower (s : String) : String := ⟨s.data.map Char.toLower⟩

/-- The per-record match of `ScheduleView`'s search filter
(src/unnamed/part_000 lines 80–89): case-insensitive substring match of the
already-lowercased `query` against patient name, the raw appointment `type`
value, or notes, each defaulted to the empty string by `?? / || ''`. -/
def matchesSearch (query : String) (appointment : PopulatedAppointment) : Bool :=
  let patientName :=
    match appointment.patient with
    | some p => jsToLower p.name
    | none => ""
  let appointmentType := jsToLower appointment.type
  let notes :=
    match appointment.notes with
    | some n => jsToLower n
    | none => ""
  jsIncludes patientName query ||
  jsIncludes appointmentType query ||
  jsIncludes notes query

/-- Source `ScheduleView` `appointments` memo (src/unnamed/part_000 lines 76–95):
blank queries return the raw list unchanged; otherwise the populated list is
filtered by `matchesSearch` and the raw list is filtered to the ids that
survived. -/
def scheduleFilteredAppointments (rawAppointments : List Appointment)
    (populatedAppointments : List PopulatedAppointment)
    (searchQuery : String) : List Appointment :=
  if jsTrim searchQuery = "" then rawAppointments
  else
    let query := jsToLower searchQuery
    let filteredPopulated := populatedAppointments.filter (matchesSearch query)
    rawAppointments.filter (fun apt =>
      filteredPopulated.any (fun filtered => filtered.id == apt.id))

/-- Stable insertion of an appointment after all earlier-or-equal starts. -/
def insertByTime (a : Appointment) : List Appointment → List Appointment
  | [] => [a]
  | b :: l => if b.startTime ≤ a.startTime then b :: insertByTime a l
              else a :: b :: l

/-- Modelled from the spec: `appointmentService.sortAppointmentsByTime` lives
in `@/services/appointmentService`, which is not under `src/`; §4.2/§6 of the
spec require a stable ascending sort by `startTime`, realised here as a
stable insertion sort. -/
def sortAppointmentsByTime (l : List Appointment) : List Appointment :=
  l.foldr insertByTime []

/-- The state triple held by `useAppointments`
(src/hooks/useAppointments.ts lines 57–59); `error : Option String` models
`Error | null` by its message. -/
structure HookState where
  appointments : List Appointment
  loading : Bool
  error : Option String
deriving DecidableEq

/-- The `catch` clause of `useAppointments` (line 98):
`err instanceof Error ? err : new Error('Failed to fetch appointments')`. -/
def caughtErrorMessage (e : JSException) : String :=
  if e.isErrorInstance then e.message else "Failed to fetch appointments"

/-- One complete fetch cycle of `useAppointments`
(src/hooks/useAppointments.ts lines 72–103), as a function of the single
store response it consumes: on success the sorted appointments are committed
with `error = null`; on a throw the error is committed and `appointments`
reset to `[]`; `finally` clears `loading` either way. -/
def runFetchCycle (result : Except JSException (List Appointment)) : HookState :=
  match result with
  | .ok fetched =>
      { appointments := sortAppointmentsByTime fetched
        loading := false
        error := none }
  | .error e =>
      { appointments := []
        loading := false
        error := some (caughtErrorMessage e) }

/-- A fetch cycle run against a queue of pending store responses: the cycle
performs exactly one store call, consuming exactly the head response (the code
contains no retry loop).  An empty queue leaves the given state unchanged. -/
def runFetchCycleOnQueue (prev : HookState)
    (queue : List (Except JSException (List Appointment))) :
    HookState × List (Except JSException (List Appointment)) :=
  match queue with
  | [] => (prev, [])
  | r :: rest => (runFetchCycle r, rest)

/-- An observable event of the `useAppointments` effect, at the granularity
of the spec's §5 execution model (the store fetch is the only suspension
point): `start reqId` is the synchronous prefix of effect run `reqId`
(`setLoading(true); setError(null)`), `arrive reqId result` is the resumption
after that run's store call returns (commit or catch, then `finally`). -/
inductive FetchEvent where
  | start (reqId : Nat)
  | arrive (reqId : Nat) (result : Except JSException (List Appointment))

/-- Initial `useState` values of `useAppointments` (lines 57–59). -/
def initialHookState : HookState :=
  { appointments := [], loading := true, error := none }

/-- One event step of `useAppointments` (src/hooks/useAppointments.ts lines
71–106).  The code carries no request token: an `arrive` event commits its
response unconditionally, regardless of whether a newer request has started
since. -/
def stepHook (s : HookState) : FetchEvent → HookState
  | .start _ => { s with loading := true, error := none }
  | .arrive _ (.ok fetched) =>
      { s with appointments := sortAppointmentsByTime fetched, loading := false }
  | .arrive _ (.error e) =>
      { appointments := [], loading := false, error := some (caughtErrorMessage e) }

/-- The hook state after a sequence of effect events. -/
def runHookEvents (events : List FetchEvent) : HookState :=
  events.foldl stepHook initialHookState

/-- One day in milliseconds. -/
def dayMs : Int := 86400000

/-- Model of date-fns `startOfWeek(date, weekStartsOn: 1)` under the embedding's
Monday-midnight epoch: the last Monday midnight at or before `t`. -/
def startOfWeekMonday (t : Int) : Int := 604800000 * (t.fdiv 604800000)

/-- Model of date-fns `addDays(t, n)`. -/
def addDaysMs (t : Int) (n : Int) : Int := t + n * dayMs

/-- The `[startDate, endDate]` pair that `ScheduleView` passes to
`useAppointments` when `view === 'week'` (src/unnamed/part_000 lines 59–68):
`startDate = startOfWeek(selectedDate)`, `endDate = addDays(weekStartDate, 6)`
— Sunday at the same wall-clock time as the Monday midnight week start. -/
def scheduleViewWeekRange (selectedDate : Int) : Int × Int :=
  let weekStartDate := startOfWeekMonday selectedDate
  (weekStartDate, addDaysMs weekStartDate 6)

/-- The `[startDate, endDate]` pair built by `useWeekViewAppointments`
(src/hooks/useAppointments.ts lines 126–137): `setDate(+6)` then
`setHours(23, 59, 59, 999)`, i.e. Sunday 23:59:59.999.  This hook is defined
but never called by any component under `src/`. -/
def useWeekViewRange (weekStartDate : Int) : Int × Int :=
  let weekEndDate :=
    dayMs * ((addDaysMs weekStartDate 6).fdiv dayMs) + 86399999
  (weekStartDate, weekEndDate)

/-- Floor-division bounds used for the `Math.round` / `Math.ceil` models. -/
theorem fdiv_bounds (n : Int) {d : Int} (hd : 0 < d) :
    d * (n.fdiv d) ≤ n ∧ n < d * (n.fdiv d) + d := by
  have h1 := Int.fdiv_add_fmod n d
  have h2 := Int.fmod_nonneg' n hd
  have h3 := Int.fmod_lt_of_pos n hd
  omega

/-- Example patient used by the concrete instantiations below. -/
def patientAlice : Patient := { id := "p1", name := "Alice Smith" }

/-- A populated appointment starting exactly on the 9:00 slot boundary. -/
def pBoundary : PopulatedAppointment :=
  { id := "a0", doctorId := "d1", patientId := "p1"
    startTime := 32400000, endTime := 34200000
    type := "consultation", notes := none
    patient := some patientAlice, doctor := none }

/-- A populated appointment 9:15–10:00 (45 minutes), home slot [9:00, 9:30). -/
def pEx915 : PopulatedAppointment :=
  { id := "a1", doctorId := "d1", patientId := "p1"
    startTime := 33300000, endTime := 36000000
    type := "consultation", notes := none
    patient := some patientAlice, doctor := none }

/-!
## Claim theorems
-/

/-- Claim C2: for the default configuration (8–18h, 30-minute slots) and any
reference date, the day view's generator produces exactly 20 slots, each 30
minutes long, ordered by start time, pairwise non-overlapping and contiguous,
and together they tile the half-open window [8:00, 18:00) of that date. -/
theorem timeSlots_default_partition (b : Int) :
    (timeSlots b).length = 20
    ∧ (∀ s ∈ timeSlots b, s.stop = s.start + 1800000)
    ∧ List.Pairwise (fun s t : TimeSlot => s.start < t.start ∧ s.stop ≤ t.start)
        (timeSlots b)
    ∧ List.Chain' (fun s t : TimeSlot => s.stop = t.start) (timeSlots b)
    ∧ ∀ t : Int, (setHMS b 8 0 ≤ t ∧ t < setHMS b 18 0) ↔
        ∃ s ∈ timeSlots b, s.start ≤ t ∧ t < s.stop := by
  refine ⟨?_, ?_, ?_, ?_, ?_⟩
  · rw [timeSlots_eq]; simp
  · intro s hs
    obtain ⟨i, _, rfl⟩ := (mem_timeSlots b s).1 hs
    rfl
  · rw [timeSlots_eq, List.pairwise_map]
    refine (List.pairwise_lt_range 20).imp ?_
    intro i j hij
    refine ⟨?_, ?_⟩
    · simp only [slotAt_start]; omega
    · simp only [slotAt_stop, slotAt_start]; omega
  · rw [timeSlots_eq, List.chain'_map]
    refine (List.chain'_range_succ _ 19).2 ?_
    intro i hi
    simp only [slotAt_stop, slotAt_start]
    omega
  · intro t
    constructor
    · rintro ⟨h1, h2⟩
      simp only [setHMS] at h1 h2
      refine ⟨slotAt b ((t - b - 28800000).toNat / 1800000),
        (mem_timeSlots _ _).2 ⟨_, ?_, rfl⟩, ?_, ?_⟩
      · omega
      · simp only [slotAt_start]; omega
      · simp only [slotAt_stop]; omega
    · rintro ⟨s, hs, hle, hlt⟩
      obtain ⟨i, hi, rfl⟩ := (mem_timeSlots b s).1 hs
      simp only [slotAt_start, slotAt_stop] at hle hlt
      simp only [setHMS]
      omega

/-- Concrete instantiation of `timeSlots_default_partition` at date 0 and
instant 9:00. -/
theorem timeSlots_default_partition_spot :
    (timeSlots 0).length = 20
    ∧ (slotAt 0 0).stop = (slotAt 0 0).start + 1800000
    ∧ ∃ s ∈ timeSlots 0, s.start ≤ 32400000 ∧ (32400000 : Int) < s.stop :=
  ⟨(timeSlots_default_partition 0).1,
   (timeSlots_default_partition 0).2.1 _ (by decide),
   ((timeSlots_default_partition 0).2.2.2.2 32400000).1 (by decide)⟩

/-- Claim C1: for every generated day-view slot `S` and populated appointment
`A`, `A` is returned by `getAppointmentsForSlot S` iff
`S.start ≤ A.startTime < S.end`; an appointment starting exactly on a slot
boundary goes to the slot beginning there, and since generated slots are
pairwise disjoint no appointment is returned for two distinct slots. -/
theorem dayView_bucketing_unique (b : Int) (pops : List PopulatedAppointment)
    (a : PopulatedAppointment) :
    (∀ s ∈ timeSlots b,
        (a ∈ getAppointmentsForSlot pops s ↔
          a ∈ pops ∧ s.start ≤ a.startTime ∧ a.startTime < s.stop))
    ∧ (∀ s ∈ timeSlots b, a ∈ pops → a.startTime = s.start →
        a ∈ getAppointmentsForSlot pops s)
    ∧ ∀ s ∈ timeSlots b, ∀ s' ∈ timeSlots b,
        a ∈ getAppointmentsForSlot pops s → a ∈ getAppointmentsForSlot pops s' →
        s = s' := by
  refine ⟨fun s _ => mem_getAppointmentsForSlot pops s a, ?_, ?_⟩
  · intro s hs ha heq
    obtain ⟨i, _, rfl⟩ := (mem_timeSlots b s).1 hs
    refine (mem_getAppointmentsForSlot _ _ _).2 ⟨ha, le_of_eq heq.symm, ?_⟩
    simp only [slotAt_start] at heq
    simp only [slotAt_stop]
    omega
  · intro s hs s' hs' h h'
    obtain ⟨i, _, rfl⟩ := (mem_timeSlots b s).1 hs
    obtain ⟨j, _, rfl⟩ := (mem_timeSlots b s').1 hs'
    rw [mem_getAppointmentsForSlot] at h h'
    simp only [slotAt_start, slotAt_stop] at h h'
    have hij : i = j := by omega
    rw [hij]

/-- Concrete instantiation of `dayView_bucketing_unique`: an appointment
starting exactly at 9:00 lands in the slot beginning at 9:00. -/
theorem dayView_bucketing_unique_spot :
    pBoundary ∈ getAppointmentsForSlot [pBoundary] (slotAt 0 2) :=
  (dayView_bucketing_unique 0 [pBoundary] pBoundary).2.1 (slotAt 0 2)
    (by decide) (by decide) (by decide)

/-- Claim C3: for an appointment in its home slot (30-minute slot, row height
70, margin 4, minimum height 20), `getAppointmentPosition` returns
`top = max 0 ((minutesFromSlotStart / 30) · 70)` and
`height = max 20 (min ((duration / 30) · 70) (70 − top − 4))`; the result is a
function of the appointment and slot alone. -/
theorem getAppointmentPosition_formula (a : PopulatedAppointment) (s : TimeSlot)
    (h1 : s.start ≤ a.startTime) (_h2 : a.startTime < s.stop) :
    (getAppointmentPosition a s).top =
      max 0 (((a.startTime - s.start : Int) : ℚ) / 60000 / 30 * 70)
    ∧ (getAppointmentPosition a s).height =
      max 20 (min (((a.endTime - a.startTime : Int) : ℚ) / 60000 / 30 * 70)
        (70 - max 0 (((a.startTime - s.start : Int) : ℚ) / 60000 / 30 * 70) - 4)) := by
  have hm : (0 : ℚ) ≤ ((a.startTime - s.start : Int) : ℚ) := by
    exact_mod_cast sub_nonneg.mpr h1
  have htop : (0 : ℚ) ≤ ((a.startTime - s.start : Int) : ℚ) / 60000 / 30 * 70 :=
    mul_nonneg (div_nonneg (div_nonneg hm (by norm_num)) (by norm_num)) (by norm_num)
  rw [max_eq_right htop]
  unfold getAppointmentPosition
  norm_num [DEFAULT_CALENDAR_CONFIG]
  push_cast at hm
  exact div_nonneg (div_nonneg hm (by norm_num)) (by norm_num)

/-- Concrete instantiation of `getAppointmentPosition_formula`: the 9:15–10:00
appointment in its [9:00, 9:30) home slot is placed at top 35 with height 31. -/
theorem getAppointmentPosition_spot :
    (getAppointmentPosition pEx915 (slotAt 0 2)).top = 35
    ∧ (getAppointmentPosition pEx915 (slotAt 0 2)).height = 31 := by
  obtain ⟨ht, hh⟩ :=
    getAppointmentPosition_formula pEx915 (slotAt 0 2) (by decide) (by decide)
  refine ⟨?_, ?_⟩
  · rw [ht]; norm_num [pEx915]
  · rw [hh]; norm_num [pEx915]

/-- Claim C9: `getAppointmentDuration` is the end−start difference rounded to
whole minutes (characterised by the half-open nearest-minute window), and
`getAppointmentSlotSpan` is the ceiling of that duration over the 30-minute
slot duration; slot bucketing is a function of `startTime` alone, so the span
never influences which slot an appointment is returned for. -/
theorem duration_span_formula (a : PopulatedAppointment) :
    (60000 * getAppointmentDuration a - 30000 ≤ a.endTime - a.startTime
      ∧ a.endTime - a.startTime < 60000 * getAppointmentDuration a + 30000)
    ∧ (30 * (getAppointmentSlotSpan a - 1) < getAppointmentDuration a
      ∧ getAppointmentDuration a ≤ 30 * getAppointmentSlotSpan a)
    ∧ ∀ (s : TimeSlot) (p p' : PopulatedAppointment), p.startTime = p'.startTime →
        (p ∈ getAppointmentsForSlot [p] s ↔ p' ∈ getAppointmentsForSlot [p'] s) := by
  refine ⟨?_, ?_, ?_⟩
  · have h := fdiv_bounds (2 * (a.endTime - a.startTime) + 1000 * 60)
      (d := 2 * (1000 * 60)) (by norm_num)
    simp only [getAppointmentDuration, jsRoundDiv] at *
    omega
  · have h := fdiv_bounds (-(getAppointmentDuration a)) (d := 30) (by norm_num)
    simp only [getAppointmentSlotSpan, jsCeilDiv, DEFAULT_CALENDAR_CONFIG] at *
    push_cast at *
    omega
  · intro s p p' hpp
    rw [mem_getAppointmentsForSlot, mem_getAppointmentsForSlot, hpp]
    simp

/-- Concrete instantiation of `duration_span_formula` at the 45-minute
9:15–10:00 appointment: duration 45, span 2, and bucketing indifference. -/
theorem duration_span_formula_spot :
    getAppointmentDuration pEx915 = 45
    ∧ (60000 * getAppointmentDuration pEx915 - 30000 ≤
        pEx915.endTime - pEx915.startTime)
    ∧ getAppointmentSlotSpan pEx915 = 2
    ∧ (pEx915 ∈ getAppointmentsForSlot [pEx915] (slotAt 0 2) ↔
        pEx915 ∈ getAppointmentsForSlot [pEx915] (slotAt 0 2)) :=
  ⟨by decide, ((duration_span_formula pEx915).1).1, by decide,
   (duration_span_formula pEx915).2.2 (slotAt 0 2) pEx915 pEx915 rfl⟩

theorem jsTrim_eq_empty (q : String) (h : ∀ c ∈ q.data, c.isWhitespace) :
    jsTrim q = "" := by
  unfold jsTrim
  have h1 : q.data.dropWhile Char.isWhitespace = [] :=
    List.dropWhile_eq_nil_iff.2 h
  rw [h1]
  rfl

/-- The raw record corresponding to `pEx915`. -/
def rawA : Appointment :=
  { id := "a1", doctorId := "d1", patientId := "p1"
    startTime := 33300000, endTime := 36000000
    type := "consultation", notes := none }

/-- Claim C4: the filtered list shown to the views is a subsequence of the
fetched list (same relative order, nothing fabricated or duplicated), and a
query that is empty or all whitespace returns the fetched list unchanged. -/
theorem filter_is_subsequence (raw : List Appointment)
    (pops : List PopulatedAppointment) (q : String) :
    (scheduleFilteredAppointments raw pops q).Sublist raw
    ∧ ((∀ c ∈ q.data, c.isWhitespace) →
        scheduleFilteredAppointments raw pops q = raw) := by
  unfold scheduleFilteredAppointments
  by_cases h : jsTrim q = ""
  · rw [if_pos h]
    exact ⟨List.Sublist.refl raw, fun _ => rfl⟩
  · rw [if_neg h]
    exact ⟨List.filter_sublist _, fun hw => absurd (jsTrim_eq_empty q hw) h⟩

/-- Concrete instantiation of `filter_is_subsequence` at the all-whitespace
query `" "`. -/
theorem filter_is_subsequence_spot :
    (scheduleFilteredAppointments [rawA] [] " ").Sublist [rawA]
    ∧ scheduleFilteredAppointments [rawA] [] " " = [rawA] :=
  ⟨(filter_is_subsequence [rawA] [] " ").1,
   (filter_is_subsequence [rawA] [] " ").2 (by decide)⟩

/-- The retention predicate exactly as claim C5 words it: the populated
record matches the query case-insensitively against the patient's name, the
appointment type's DISPLAY LABEL (`typeLabel` applied to the type value), or
the notes text. -/
def specFilterMatches (typeLabel : String → String) (query : String)
    (appointment : PopulatedAppointment) : Bool :=
  let q := jsToLower query
  jsIncludes (match appointment.patient with
              | some p => jsToLower p.name
              | none => "") q ||
  jsIncludes (jsToLower (typeLabel appointment.type)) q ||
  jsIncludes (match appointment.notes with
              | some n => jsToLower n
              | none => "") q

/-- Modelled from the spec: the display-label table `APPOINTMENT_TYPE_CONFIG`
lives in `@/types`, which is not under `src/`.  §3 of the spec fixes only
that each clinic-defined appointment type carries a display color/label, not
the concrete strings, so the label assignment is clinic-supplied data; this
is one assignment consistent with the spec, giving the type value
`"checkup"` the display label `"Check-up"`. -/
def exampleTypeLabels : String → String :=
  fun t => if t == "checkup" then "Check-up" else t

/-- A populated check-up appointment and its raw record. -/
def popCk : PopulatedAppointment :=
  { id := "a2", doctorId := "d1", patientId := "p1"
    startTime := 36000000, endTime := 37800000
    type := "checkup", notes := none
    patient := some patientAlice, doctor := none }

/-- The raw record corresponding to `popCk`. -/
def rawCk : Appointment :=
  { id := "a2", doctorId := "d1", patientId := "p1"
    startTime := 36000000, endTime := 37800000
    type := "checkup", notes := none }

/-- Counterexample to claim C5 as stated: for the query `"check-up"`, the
populated record matches by the type's display label (`"Check-up"`), yet the
filter drops the appointment — the code compares the query against the raw
`type` value (`"checkup"`), never against the display label. -/
theorem searchFilter_label_counterexample :
    specFilterMatches exampleTypeLabels "check-up" popCk = true
    ∧ rawCk.id = popCk.id
    ∧ rawCk ∈ [rawCk]
    ∧ scheduleFilteredAppointments [rawCk] [popCk] "check-up" = [] := by decide

/-- Claim C5 as amended: for a non-blank query, an appointment of the fetched
list is retained iff its corresponding populated record (same unique id)
matches the lowercased query as a substring of the lowercased patient name,
raw appointment `type` value, or notes. -/
theorem searchFilter_matches_raw_type (raw : List Appointment)
    (pops : List PopulatedAppointment) (q : String) (apt : Appointment)
    (p : PopulatedAppointment)
    (hq : ¬ jsTrim q = "") (hp : p ∈ pops) (hid : p.id = apt.id)
    (huniq : ∀ x ∈ pops, x.id = apt.id → x = p) :
    apt ∈ scheduleFilteredAppointments raw pops q ↔
      apt ∈ raw ∧ matchesSearch (jsToLower q) p = true := by
  unfold scheduleFilteredAppointments
  rw [if_neg hq]
  simp only [List.mem_filter, List.any_eq_true, beq_iff_eq]
  constructor
  · rintro ⟨hraw, x, hx, hxid⟩
    rw [huniq x hx.1 hxid] at hx
    exact ⟨hraw, hx.2⟩
  · rintro ⟨hraw, hm⟩
    exact ⟨hraw, p, ⟨hp, hm⟩, hid⟩

/-- Concrete instantiation of `searchFilter_matches_raw_type`: the query
`"alice"` retains Alice's appointment. -/
theorem searchFilter_matches_raw_type_spot :
    rawA ∈ scheduleFilteredAppointments [rawA] [pEx915] "alice" :=
  (searchFilter_matches_raw_type [rawA] [pEx915] "alice" rawA pEx915
    (by decide) (by decide) (by decide) (by decide)).2 ⟨by decide, by decide⟩

/-- Claim C6: when the store call throws during a fetch cycle of
`useAppointments`, the cycle ends with a non-null error, the empty
appointment list (no partial data), and `loading = false`; exactly one store
response is consumed — the failed fetch is not retried. -/
theorem fetchCycle_error_state (prev : HookState) (e : JSException)
    (rest : List (Except JSException (List Appointment))) :
    (runFetchCycleOnQueue prev (.error e :: rest)).1.error.isSome = true
    ∧ (runFetchCycleOnQueue prev (.error e :: rest)).1.appointments = []
    ∧ (runFetchCycleOnQueue prev (.error e :: rest)).1.loading = false
    ∧ (runFetchCycleOnQueue prev (.error e :: rest)).2 = rest :=
  ⟨rfl, rfl, rfl, rfl⟩

/-- Claim C7 evaluated on the code: for a Wednesday selected date
(`1472400000` = week 2, Wednesday 01:00), `ScheduleView` passes the week
range ending Sunday 00:00:00.000 (`1728000000`), not Sunday 23:59:59.999
(`1814399999`) as the claim states, so a Sunday 18:00 appointment
(`1792800000`) lies outside the range actually passed, though inside the
range built by the never-called `useWeekViewAppointments`. -/
theorem weekRange_missing_end_of_day :
    (scheduleViewWeekRange 1472400000).2 = 1728000000
    ∧ (useWeekViewRange (startOfWeekMonday 1472400000)).2 = 1814399999
    ∧ ¬((scheduleViewWeekRange 1472400000).1 ≤ 1792800000
        ∧ (1792800000 : Int) ≤ (scheduleViewWeekRange 1472400000).2)
    ∧ ((useWeekViewRange (startOfWeekMonday 1472400000)).1 ≤ 1792800000
        ∧ (1792800000 : Int) ≤ (useWeekViewRange (startOfWeekMonday 1472400000)).2) := by
  decide

/-- A stale appointment list (request 1) and a fresh one (request 2). -/
def aStale : Appointment :=
  { id := "s1", doctorId := "d1", patientId := "p1"
    startTime := 33300000, endTime := 36000000
    type := "checkup", notes := none }

/-- The appointment of the most recent request. -/
def aFresh : Appointment :=
  { id := "f1", doctorId := "d1", patientId := "p2"
    startTime := 37800000, endTime := 39600000
    type := "consultation", notes := none }

/-- Two overlapping fetch cycles whose responses arrive out of order: request
2 (the most recent) responds first, request 1's stale response arrives last. -/
def staleTrace : List FetchEvent :=
  [.start 1, .start 2, .arrive 2 (.ok [aFresh]), .arrive 1 (.ok [aStale])]

/-- Claim C8 evaluated on the code: `useAppointments` carries no request
token, so the stale response of superseded request 1, arriving after request
2's response, is committed and overwrites the fresher state — the final
appointments are request 1's, not request 2's. -/
theorem staleResponse_overwrites_fresh :
    (runHookEvents staleTrace).appointments = [aStale]
    ∧ aStale ≠ aFresh := by
  exact ⟨rfl, by decide⟩

/-- An appointment at 7:00, before the displayed window, and its raw record. -/
def pEarly : PopulatedAppointment :=
  { id := "a3", doctorId := "d1", patientId := "p1"
    startTime := 25200000, endTime := 27000000
    type := "consultation", notes := none
    patient := some patientAlice, doctor := none }

/-- The raw record corresponding to `pEarly`. -/
def rawEarly : Appointment :=
  { id := "a3", doctorId := "d1", patientId := "p1"
    startTime := 25200000, endTime := 27000000
    type := "consultation", notes := none }

/-- Claim C10: appointments starting before 8:00 or at/after 18:00 of the
displayed day are returned for no generated day-view slot (every timeline row
stays empty), while a non-empty raw list still suppresses the "no
appointments" empty state, so the grid can be fully empty with the message
hidden. -/
theorem outOfWindow_invisible (b : Int) (pops : List PopulatedAppointment)
    (raw : List Appointment)
    (hall : ∀ a ∈ pops,
      a.startTime < setHMS b 8 0 ∨ setHMS b 18 0 ≤ a.startTime)
    (hraw : raw ≠ []) :
    (∀ s ∈ timeSlots b, getAppointmentsForSlot pops s = [])
    ∧ dayViewShowsEmptyState raw = false := by
  constructor
  · intro s hs
    obtain ⟨i, hi, rfl⟩ := (mem_timeSlots b s).1 hs
    unfold getAppointmentsForSlot
    rw [List.filter_eq_nil_iff]
    intro a ha
    have h := hall a ha
    simp only [setHMS] at h
    simp only [slotAt_start, slotAt_stop, Bool.and_eq_true, decide_eq_true_eq,
      not_and, not_lt]
    intro hle
    omega
  · cases raw with
    | nil => exact absurd rfl hraw
    | cons a l => rfl

/-- Concrete instantiation of `outOfWindow_invisible`: a single 7:00
appointment renders in no slot, yet the empty state is suppressed. -/
theorem outOfWindow_invisible_spot :
    getAppointmentsForSlot [pEarly] (slotAt 0 0) = []
    ∧ dayViewShowsEmptyState [rawEarly] = false :=
  ⟨(outOfWindow_invisible 0 [pEarly] [rawEarly] (by decide) (by decide)).1
      (slotAt 0 0) (by decide),
   (outOfWindow_invisible 0 [pEarly] [rawEarly] (by decide) (by decide)).2⟩
